import Mathlib

/-!
Verification of the vex_hk advisory aggregator against its specification.

This file shallowly embeds the parts of the source that the checked claims
are about: the row codec (`csv_postgres_integration.rs`), the GitHub commit
differ (`scrape_mod/github/repository_update.rs`), the transactional
add/update/delete store operation (`csv_postgres_integration.rs`), the table
name selection (`scrape_mod/github/mod.rs`), the scraper state save
(`state.rs`), the OSV incremental update (`scrape_mod/osv/update.rs`) and the
two archive-to-rows transformers (`scrape_mod/osv/full.rs`,
`scrape_mod/github/repository.rs`).

Conventions: `chrono::DateTime<Utc>` is modelled as a calendar structure
`Date`; Rust panics are modelled as `Option.none` or dedicated error
constructors; I/O effects are modelled as explicit traces or oracle
functions (for the HTTP fetches and JSON [de]serialization performed by
external libraries).
-/

/-- Model of `chrono::DateTime<Utc>`: a UTC calendar timestamp (second
precision; chrono's sub-second part is not used by any code under scrutiny). -/
structure Date where
  year : Nat
  month : Nat
  day : Nat
  hour : Nat
  minute : Nat
  second : Nat
deriving DecidableEq, Repr

/-- Chronological comparison key. For calendar-valid dates the chronological
order coincides with the order of this mixed-radix key (fields are bounded by
13, 32, 24, 60, 60 for valid dates). -/
def Date.key (d : Date) : Nat :=
  ((((d.year * 13 + d.month) * 32 + d.day) * 24 + d.hour) * 60 + d.minute) * 60 + d.second

instance : Inhabited Date := ⟨⟨0, 0, 0, 0, 0, 0⟩⟩

/-- Zero-pad a numeral to two digits, as chrono does for month/day/time fields. -/
def pad2 (n : Nat) : String :=
  if n < 10 then "0" ++ toString n else toString n

/-- Zero-pad a numeral to four digits, as chrono does for the year field. -/
def pad4 (n : Nat) : String :=
  if n < 10 then "000" ++ toString n
  else if n < 100 then "00" ++ toString n
  else if n < 1000 then "0" ++ toString n
  else toString n

/-- Model of `chrono::DateTime::<Utc>::to_rfc3339`: `YYYY-MM-DDTHH:MM:SS+00:00`. -/
def Date.toRfc3339 (d : Date) : String :=
  pad4 d.year ++ "-" ++ pad2 d.month ++ "-" ++ pad2 d.day ++ "T" ++
    pad2 d.hour ++ ":" ++ pad2 d.minute ++ ":" ++ pad2 d.second ++ "+00:00"

/-- Structural subset of `OSV<T>` (`osv_schema.rs`) that the row codec reads:
`id`, `modified` (required) and `published` (optional).  All remaining fields
(`aliases`, `severity`, `affected`, ..., `database_specific`) only travel
through `serde_json` serialization into the `json` column; they are abstracted
into the opaque `payload` component, and serialization itself is passed in as
an oracle function wherever it is needed. -/
structure OsvRecord where
  id : String
  modified : Date
  published : Option Date
  payload : String
deriving DecidableEq, Repr

/-- Model of `GeneralizedCsvRecord` (`csv_postgres_integration.rs`): four
string fields `(id, published, modified, json)`. -/
structure GeneralizedCsvRecord where
  id : String
  published : String
  modified : String
  json : String
deriving DecidableEq, Repr

/-- Model of `GeneralizedCsvRecord::from_osv`: `published` falls back to
`modified` when absent (`data.published.unwrap_or(data.modified)`), both
timestamps are rendered with `to_rfc3339`, and the whole document is
serialized into `json` (serde_json is the `serialize` oracle). -/
def GeneralizedCsvRecord.fromOsv (serialize : OsvRecord → String) (data : OsvRecord) :
    GeneralizedCsvRecord :=
  { id := data.id
    published := (data.published.getD data.modified).toRfc3339
    modified := data.modified.toRfc3339
    json := serialize data }

/-- Model of `GeneralizedCsvRecord::as_row`: the `[id, published, modified, json]`
record handed to the csv writer. -/
def GeneralizedCsvRecord.asRow (r : GeneralizedCsvRecord) : List String :=
  [r.id, r.published, r.modified, r.json]

/-- Model of `GeneralizedCsvRecord::from_csv_record`: deserializing a csv
`StringRecord` (a list of fields) back into the four-field struct; the
`expect` panic on a malformed record is modelled as `none`. -/
def GeneralizedCsvRecord.fromCsvRecord (record : List String) :
    Option GeneralizedCsvRecord :=
  match record with
  | [id, published, modified, json] => some ⟨id, published, modified, json⟩
  | _ => none

/-- The "essentials" view of a stored row: `(id, published, modified)`. -/
def GeneralizedCsvRecord.essentials (r : GeneralizedCsvRecord) :
    String × String × String :=
  (r.id, r.published, r.modified)

/-- The essentials of an advisory as the spec defines them: `id`, the
published timestamp (falling back to `modified` when the source lacks one)
and the modified timestamp, rendered in RFC 3339. -/
def OsvRecord.essentials (o : OsvRecord) : String × String × String :=
  (o.id, (o.published.getD o.modified).toRfc3339, o.modified.toRfc3339)

/-- C9: encoding a well-formed advisory with `from_osv` into the four-column
row and parsing that row back with `from_csv_record` yields the same
essentials `(id, published, modified)`, the published column being the
modified timestamp when the advisory has no published date. -/
theorem c9_row_codec_roundtrip (serialize : OsvRecord → String) (o : OsvRecord) :
    (GeneralizedCsvRecord.fromCsvRecord
        ((GeneralizedCsvRecord.fromOsv serialize o).asRow)).map
        GeneralizedCsvRecord.essentials
      = some o.essentials := by
  rfl

/-! ## GitHub commit structures (`repository_update.rs`) -/

/-- Model of `GithubCommitDataAuthor`. -/
structure GithubCommitDataAuthor where
  date : Date
deriving DecidableEq, Repr

/-- Model of `GithubCommitDataCommitter`. -/
structure GithubCommitDataCommitter where
  date : Date
deriving DecidableEq, Repr

/-- Model of `GithubCommitData`: optional author and committer blocks. -/
structure GithubCommitData where
  author : Option GithubCommitDataAuthor
  committer : Option GithubCommitDataCommitter
deriving DecidableEq, Repr

/-- Model of `GithubCommit`: the commit detail url plus the commit data. -/
structure GithubCommit where
  url : String
  commit : GithubCommitData
deriving DecidableEq, Repr

/-- Model of `GithubCommit::try_get_date`: committer date first, author date
second; the `panic!("GithubCommit no committer or author")` on a commit with
neither is modelled as `none`. -/
def GithubCommit.tryGetDate (c : GithubCommit) : Option Date :=
  match c.commit.committer with
  | some committer => some committer.date
  | none =>
    match c.commit.author with
    | some author => some author.date
    | none => none

/-- C10: `try_get_date` returns the committer date when a committer is
present, otherwise the author date when an author is present, and panics
(modelled as `none`) when the commit has neither. -/
theorem c10_try_get_date_spec (c : GithubCommit) :
    (∀ comm, c.commit.committer = some comm → c.tryGetDate = some comm.date) ∧
    (c.commit.committer = none →
      ∀ a, c.commit.author = some a → c.tryGetDate = some a.date) ∧
    (c.commit.committer = none → c.commit.author = none → c.tryGetDate = none) := by
  refine ⟨?_, ?_, ?_⟩
  · intro comm h
    simp [GithubCommit.tryGetDate, h]
  · intro hc a ha
    simp [GithubCommit.tryGetDate, hc, ha]
  · intro hc ha
    simp [GithubCommit.tryGetDate, hc, ha]

/-- Witness for C10 on three concrete commits: committer present, author-only,
and neither. -/
theorem c10_try_get_date_spec_witness :
    GithubCommit.tryGetDate
        ⟨"u1", ⟨some ⟨⟨2025, 1, 1, 0, 0, 0⟩⟩, some ⟨⟨2025, 1, 2, 0, 0, 0⟩⟩⟩⟩
      = some ⟨2025, 1, 2, 0, 0, 0⟩ ∧
    GithubCommit.tryGetDate ⟨"u2", ⟨some ⟨⟨2025, 1, 3, 0, 0, 0⟩⟩, none⟩⟩
      = some ⟨2025, 1, 3, 0, 0, 0⟩ ∧
    GithubCommit.tryGetDate ⟨"u3", ⟨none, none⟩⟩ = none := by
  refine ⟨?_, ?_, ?_⟩
  · exact (c10_try_get_date_spec _).1 _ rfl
  · exact (c10_try_get_date_spec _).2.1 rfl _ rfl
  · exact (c10_try_get_date_spec _).2.2 rfl rfl

/-! ## GitHub commit walk (`update_osv`, `repository_update.rs`) -/

/-- Model of `GithubCommitFileStatus`. -/
inductive GithubCommitFileStatus where
  | added
  | removed
  | modified
  | renamed
  | copied
  | changed
  | unchanged
deriving DecidableEq, Repr

/-- Model of `GithubCommitFile`: filename, status, optional unified-diff patch
and optional previous filename (for renames). -/
structure GithubCommitFile where
  filename : String
  status : GithubCommitFileStatus
  patch : Option String
  previousFilename : Option String
deriving DecidableEq, Repr

/-- A commit together with the per-commit file list its detail endpoint
returns (fields of `GithubCommit` plus the `files` of `GithubSingleCommit`),
in the order the API returned them. -/
structure CommitEntry where
  commit : GithubCommit
  files : List GithubCommitFile
deriving DecidableEq, Repr

/-- The three filename sets and the skip counter accumulated by the commit
walk in `update_osv` (`to_add_files`, `to_update_files`, `to_delete_files`,
`skipped`).  Rust `HashSet<String>` is modelled as a duplicate-free list in
insertion order. -/
structure DeltaSets where
  toAddFiles : List String
  toUpdateFiles : List String
  toDeleteFiles : List String
  skipped : Nat
deriving DecidableEq, Repr

/-- Model of Rust `str::starts_with` (computable in the kernel, unlike
`String.startsWith`). -/
def strStartsWith (s p : String) : Bool := p.data.isPrefixOf s.data

/-- Model of Rust `str::ends_with`. -/
def strEndsWith (s p : String) : Bool := p.data.reverse.isPrefixOf s.data.reverse

/-- Model of `HashSet::insert`: add the element unless already present. -/
def insertS (s : List String) (x : String) : List String :=
  if s.contains x then s else s ++ [x]

/-- Errors and panics that can abort the commit walk: the
`UnhandledCommitFileStatus` error, the `expect` on a missing patch of an
`added` file, the `unwrap` on a missing previous filename of a rename, and
the `try_get_date` panic hit while sorting dateless commits. -/
inductive WalkError where
  | unhandledCommitFileStatus (status : GithubCommitFileStatus)
      (filename : String) (commitUrl : String)
  | missingPatchOnAdded
  | missingPreviousFilenameOnRenamed
  | noCommitterOrAuthor
deriving DecidableEq, Repr

/-- One iteration of the per-file loop in `update_osv`'s commit walk.  The
filename filter, skip check and status dispatch mirror the source; patch
content parsing and the reviewed/unreviewed CSV row emission of the `added`
branch affect only the emitted rows and extra abort paths, never the three
filename sets, and are omitted from this state. -/
def processFile (commitUrl : String) (st : DeltaSets) (f : GithubCommitFile) :
    Except WalkError DeltaSets :=
  if strStartsWith f.filename "advisories/" && strEndsWith f.filename ".json" then
    if st.toAddFiles.contains f.filename || st.toUpdateFiles.contains f.filename
        || st.toDeleteFiles.contains f.filename then
      .ok { st with skipped := st.skipped + 1 }
    else
      match f.status with
      | .added =>
        match f.patch with
        | none => .error .missingPatchOnAdded
        | some _ => .ok { st with toAddFiles := insertS st.toAddFiles f.filename }
      | .modified => .ok { st with toUpdateFiles := insertS st.toUpdateFiles f.filename }
      | .removed => .ok { st with toDeleteFiles := insertS st.toDeleteFiles f.filename }
      | .renamed =>
        match f.previousFilename with
        | none => .error .missingPreviousFilenameOnRenamed
        | some prev =>
          .ok { st with toDeleteFiles := insertS st.toDeleteFiles prev,
                        toUpdateFiles := insertS st.toUpdateFiles f.filename }
      | s => .error (.unhandledCommitFileStatus s f.filename commitUrl)
  else
    .ok st

/-- The per-file loop over one commit's file list. -/
def processFiles (commitUrl : String) (st : DeltaSets) :
    List GithubCommitFile → Except WalkError DeltaSets
  | [] => .ok st
  | f :: fs =>
    match processFile commitUrl st f with
    | .error e => .error e
    | .ok st' => processFiles commitUrl st' fs

/-- The outer loop over the commit list. -/
def processCommits (st : DeltaSets) : List CommitEntry → Except WalkError DeltaSets
  | [] => .ok st
  | c :: cs =>
    match processFiles c.commit.url st c.files with
    | .error e => .error e
    | .ok st' => processCommits st' cs

/-- Sort key used by `commits.sort_by(|a, b| a.try_get_date().cmp(b.try_get_date()))`;
only evaluated on commits that have a date (the walk aborts earlier otherwise),
so the `default` is never reached in any theorem below. -/
def CommitEntry.sortDateKey (c : CommitEntry) : Nat :=
  ((c.commit.tryGetDate).getD default).key

/-- Stable insertion into a date-ascending list: the new element goes before
the first strictly later element, so elements with equal dates keep their
original relative order, as Rust's stable `sort_by` does. -/
def insertByDate (x : CommitEntry) : List CommitEntry → List CommitEntry
  | [] => [x]
  | y :: ys =>
    if y.sortDateKey < x.sortDateKey then y :: insertByDate x ys else x :: y :: ys

/-- Stable ascending sort by commit date, modelling
`commits.sort_by(|a, b| a.try_get_date().cmp(b.try_get_date()))`. -/
def sortCommitsByDate (l : List CommitEntry) : List CommitEntry :=
  l.foldr insertByDate []

/-- The full commit walk of `update_osv`: sort the commit list oldest-first by
`try_get_date`, then iterate `commits.into_iter().rev()` — i.e. over the
REVERSED sorted list — feeding every commit's files through the status
dispatch.  The guard models the `try_get_date` panic for commits with neither
committer nor author. -/
def commitWalk (commits : List CommitEntry) : Except WalkError DeltaSets :=
  if commits.any (fun c => c.commit.tryGetDate.isNone) then
    .error .noCommitterOrAuthor
  else
    processCommits ⟨[], [], [], 0⟩ ((sortCommitsByDate commits).reverse)

/-- An `added` commit file for the C1 scenario: valid advisory path, patch present. -/
def c1FileAdded : GithubCommitFile :=
  ⟨"advisories/unreviewed/2025/01/GHSA-aaaa-bbbb-cccc/GHSA-aaaa-bbbb-cccc.json",
    .added, some "@@ -0,0 +1,5 @@ valid advisory json patch", none⟩

/-- A `modified` commit file for the same advisory filename. -/
def c1FileModified : GithubCommitFile :=
  ⟨"advisories/unreviewed/2025/01/GHSA-aaaa-bbbb-cccc/GHSA-aaaa-bbbb-cccc.json",
    .modified, none, none⟩

/-- The older commit (committer date 2025-01-01) adding the file. -/
def c1CommitOld : CommitEntry :=
  ⟨⟨"https://api.github.com/commit/old", ⟨none, some ⟨⟨2025, 1, 1, 0, 0, 0⟩⟩⟩⟩,
    [c1FileAdded]⟩

/-- The newer commit (committer date 2025-01-02) modifying the same file. -/
def c1CommitNew : CommitEntry :=
  ⟨⟨"https://api.github.com/commit/new", ⟨none, some ⟨⟨2025, 1, 2, 0, 0, 0⟩⟩⟩⟩,
    [c1FileModified]⟩

set_option maxRecDepth 8192 in
/-- C1 (code bug): on two commits where the older one adds an advisory file
and the newer one modifies it, the walk processes the NEWER commit first —
the list is sorted oldest-first and then iterated with `.rev()` — so the
filename is pinned as modified and the add is skipped, ending in the
modified set instead of the added set as the claim (and the source's own
comments "sort commits by earliest first" / "go through commits in reverse
(earliest first)") state. -/
theorem c1_commit_order_bug :
    commitWalk [c1CommitOld, c1CommitNew]
      = .ok ⟨[], ["advisories/unreviewed/2025/01/GHSA-aaaa-bbbb-cccc/GHSA-aaaa-bbbb-cccc.json"],
              [], 1⟩ := by
  rfl

/-! ## C5: disjointness of the three delta sets -/

/-- All per-commit files of a commit list, in order. -/
def allFiles (cs : List CommitEntry) : List GithubCommitFile :=
  cs.flatMap (·.files)

/-- All filenames mentioned by the per-commit file lists. -/
def allFilenames (cs : List CommitEntry) : List String :=
  (allFiles cs).map (·.filename)

/-- The previous filenames carried by rename entries. -/
def renamePrevs (cs : List CommitEntry) : List String :=
  (allFiles cs).filterMap fun f =>
    match f.status, f.previousFilename with
    | .renamed, some p => some p
    | _, _ => none

/-- A commit for the C5 counterexample: one commit first modifies advisory
file `A`, then renames `A` to `B` (GitHub reports the rename with
`previous_filename = A`). -/
def c5RenameCommit : CommitEntry :=
  ⟨⟨"https://api.github.com/commit/ren", ⟨none, some ⟨⟨2025, 2, 1, 0, 0, 0⟩⟩⟩⟩,
    [⟨"advisories/unreviewed/2025/02/GHSA-dddd-eeee-ffff/GHSA-dddd-eeee-ffff.json",
        .modified, none, none⟩,
     ⟨"advisories/unreviewed/2025/02/GHSA-gggg-hhhh-iiii/GHSA-gggg-hhhh-iiii.json",
        .renamed, none,
        some "advisories/unreviewed/2025/02/GHSA-dddd-eeee-ffff/GHSA-dddd-eeee-ffff.json"⟩]⟩

set_option maxRecDepth 8192 in
/-- C5 counterexample: at the end of the commit walk on `c5RenameCommit` the
old path of the rename sits in BOTH the modified set and the removed set —
the rename inserts its `previous_filename` into the removed set without the
membership check that guards every other insertion — so the claimed pairwise
disjointness fails. -/
theorem c5_disjointness_counterexample :
    commitWalk [c5RenameCommit]
        = .ok ⟨[],
            ["advisories/unreviewed/2025/02/GHSA-dddd-eeee-ffff/GHSA-dddd-eeee-ffff.json",
             "advisories/unreviewed/2025/02/GHSA-gggg-hhhh-iiii/GHSA-gggg-hhhh-iiii.json"],
            ["advisories/unreviewed/2025/02/GHSA-dddd-eeee-ffff/GHSA-dddd-eeee-ffff.json"],
            0⟩ ∧
    ¬ (∀ x ∈ ["advisories/unreviewed/2025/02/GHSA-dddd-eeee-ffff/GHSA-dddd-eeee-ffff.json",
              "advisories/unreviewed/2025/02/GHSA-gggg-hhhh-iiii/GHSA-gggg-hhhh-iiii.json"],
         x ∉ ["advisories/unreviewed/2025/02/GHSA-dddd-eeee-ffff/GHSA-dddd-eeee-ffff.json"]) := by
  constructor
  · rfl
  · intro h
    exact h "advisories/unreviewed/2025/02/GHSA-dddd-eeee-ffff/GHSA-dddd-eeee-ffff.json"
      (by simp) (by simp)

/-- Pairwise disjointness of the three delta sets. -/
def Disj3 (st : DeltaSets) : Prop :=
  (∀ x ∈ st.toAddFiles, x ∉ st.toUpdateFiles) ∧
  (∀ x ∈ st.toAddFiles, x ∉ st.toDeleteFiles) ∧
  (∀ x ∈ st.toUpdateFiles, x ∉ st.toDeleteFiles)

/-- Walk invariant for the conditional disjointness proof: the sets are
pairwise disjoint and the added/modified sets only ever hold filenames that
occur in the input's file lists. -/
def WalkInv (cs : List CommitEntry) (st : DeltaSets) : Prop :=
  Disj3 st ∧ (∀ x ∈ st.toAddFiles, x ∈ allFilenames cs) ∧
    (∀ x ∈ st.toUpdateFiles, x ∈ allFilenames cs)

lemma mem_insertS {s : List String} {x y : String} :
    y ∈ insertS s x ↔ y ∈ s ∨ y = x := by
  unfold insertS
  split
  · rename_i h
    constructor
    · exact .inl
    · rintro (hy | rfl)
      · exact hy
      · exact List.elem_iff.1 h
  · simp

lemma processFile_walkInv {cs : List CommitEntry} {url : String}
    {st st' : DeltaSets} {f : GithubCommitFile}
    (H : ∀ p ∈ renamePrevs cs, p ∉ allFilenames cs)
    (hf : f ∈ allFiles cs)
    (hinv : WalkInv cs st)
    (h : processFile url st f = .ok st') : WalkInv cs st' := by
  obtain ⟨⟨hAU, hAD, hUD⟩, hAF, hUF⟩ := hinv
  have hfn : f.filename ∈ allFilenames cs := List.mem_map_of_mem _ hf
  unfold processFile at h
  split at h
  · split at h
    · cases h
      exact ⟨⟨hAU, hAD, hUD⟩, hAF, hUF⟩
    · rename_i hmem
      have hnm : (f.filename ∉ st.toAddFiles ∧ f.filename ∉ st.toUpdateFiles) ∧
          f.filename ∉ st.toDeleteFiles := by
        simpa [List.elem_iff, not_or] using hmem
      obtain ⟨⟨hnA, hnU⟩, hnD⟩ := hnm
      split at h
      · -- added: match on patch
        split at h
        · cases h
        · cases h
          refine ⟨⟨?_, ?_, ?_⟩, ?_, hUF⟩
          · intro x hx
            rcases mem_insertS.1 hx with hx' | rfl
            · exact hAU x hx'
            · exact hnU
          · intro x hx
            rcases mem_insertS.1 hx with hx' | rfl
            · exact hAD x hx'
            · exact hnD
          · exact hUD
          · intro x hx
            rcases mem_insertS.1 hx with hx' | rfl
            · exact hAF x hx'
            · exact hfn
      · -- modified
        cases h
        refine ⟨⟨?_, hAD, ?_⟩, hAF, ?_⟩
        · intro x hx hx'
          rcases mem_insertS.1 hx' with hx'' | rfl
          · exact hAU x hx hx''
          · exact hnA hx
        · intro x hx
          rcases mem_insertS.1 hx with hx' | rfl
          · exact hUD x hx'
          · exact hnD
        · intro x hx
          rcases mem_insertS.1 hx with hx' | rfl
          · exact hUF x hx'
          · exact hfn
      · -- removed
        cases h
        refine ⟨⟨hAU, ?_, ?_⟩, hAF, hUF⟩
        · intro x hx hx'
          rcases mem_insertS.1 hx' with hx'' | rfl
          · exact hAD x hx hx''
          · exact hnA hx
        · intro x hx hx'
          rcases mem_insertS.1 hx' with hx'' | rfl
          · exact hUD x hx hx''
          · exact hnU hx
      · -- renamed: match on previous filename
        split at h
        · cases h
        · rename_i prev hprev
          cases h
          have hprevMem : prev ∈ renamePrevs cs := by
            refine List.mem_filterMap.2 ⟨f, hf, ?_⟩
            rename_i hstatus _
            rw [hstatus, hprev]
          have hprevNotF : prev ∉ allFilenames cs := H prev hprevMem
          refine ⟨⟨?_, ?_, ?_⟩, hAF, ?_⟩
          · intro x hx hx'
            rcases mem_insertS.1 hx' with hx'' | rfl
            · exact hAU x hx hx''
            · exact hnA hx
          · intro x hx hx'
            rcases mem_insertS.1 hx' with hx'' | rfl
            · exact hAD x hx hx''
            · exact hprevNotF (hAF x hx)
          · intro x hx hx'
            rcases mem_insertS.1 hx with hx1 | rfl
            · rcases mem_insertS.1 hx' with hx2 | rfl
              · exact hUD x hx1 hx2
              · exact hprevNotF (hUF x hx1)
            · rcases mem_insertS.1 hx' with hx2 | heq
              · exact hnD hx2
              · exact hprevNotF (heq ▸ hfn)
          · intro x hx
            rcases mem_insertS.1 hx with hx' | rfl
            · exact hUF x hx'
            · exact hfn
      · cases h
  · cases h
    exact ⟨⟨hAU, hAD, hUD⟩, hAF, hUF⟩

lemma processFiles_walkInv {cs : List CommitEntry} {url : String}
    (H : ∀ p ∈ renamePrevs cs, p ∉ allFilenames cs) :
    ∀ {fs : List GithubCommitFile} {st st' : DeltaSets},
      (∀ f ∈ fs, f ∈ allFiles cs) → WalkInv cs st →
      processFiles url st fs = .ok st' → WalkInv cs st'
  | [], _, _, _, hinv, h => by cases h; exact hinv
  | f :: fs, st, st', hfs, hinv, h => by
    unfold processFiles at h
    split at h
    · cases h
    · rename_i st₁ h₁
      exact processFiles_walkInv H (fun g hg => hfs g (List.mem_cons_of_mem _ hg))
        (processFile_walkInv H (hfs f (List.mem_cons_self f fs)) hinv h₁) h

lemma processCommits_walkInv {cs : List CommitEntry}
    (H : ∀ p ∈ renamePrevs cs, p ∉ allFilenames cs) :
    ∀ {list : List CommitEntry} {st st' : DeltaSets},
      (∀ c ∈ list, c ∈ cs) → WalkInv cs st →
      processCommits st list = .ok st' → WalkInv cs st'
  | [], _, _, _, hinv, h => by cases h; exact hinv
  | c :: list, st, st', hlist, hinv, h => by
    unfold processCommits at h
    split at h
    · cases h
    · rename_i st₁ h₁
      have hc : c ∈ cs := hlist c (List.mem_cons_self c list)
      have hfiles : ∀ f ∈ c.files, f ∈ allFiles cs := fun f hf =>
        List.mem_flatMap.2 ⟨c, hc, hf⟩
      exact processCommits_walkInv H
        (fun d hd => hlist d (List.mem_cons_of_mem _ hd))
        (processFiles_walkInv H hfiles hinv h₁) h

lemma insertByDate_perm (x : CommitEntry) :
    ∀ l : List CommitEntry, List.Perm (insertByDate x l) (x :: l)
  | [] => .refl _
  | y :: ys => by
    unfold insertByDate
    split
    · exact ((insertByDate_perm x ys).cons y).trans (List.Perm.swap x y ys)
    · exact .refl _

lemma sortCommitsByDate_perm : ∀ l : List CommitEntry, List.Perm (sortCommitsByDate l) l
  | [] => .refl _
  | x :: xs => by
    show List.Perm (insertByDate x (sortCommitsByDate xs)) (x :: xs)
    exact (insertByDate_perm x (sortCommitsByDate xs)).trans
      ((sortCommitsByDate_perm xs).cons x)

lemma mem_of_mem_processed {c : CommitEntry} {commits : List CommitEntry}
    (h : c ∈ (sortCommitsByDate commits).reverse) : c ∈ commits :=
  (sortCommitsByDate_perm commits).mem_iff.1 (List.mem_reverse.1 h)

/-- The unconditional half: `added` and `modified` stay disjoint through
every step of the per-file loop (both insertions are guarded by the
membership check). -/
def DisjAU (st : DeltaSets) : Prop :=
  ∀ x ∈ st.toAddFiles, x ∉ st.toUpdateFiles

lemma processFile_disjAU {url : String} {st st' : DeltaSets} {f : GithubCommitFile}
    (hinv : DisjAU st) (h : processFile url st f = .ok st') : DisjAU st' := by
  unfold processFile at h
  split at h
  · split at h
    · cases h
      exact hinv
    · rename_i hmem
      have hnm : (f.filename ∉ st.toAddFiles ∧ f.filename ∉ st.toUpdateFiles) ∧
          f.filename ∉ st.toDeleteFiles := by
        simpa [List.elem_iff, not_or] using hmem
      obtain ⟨⟨hnA, hnU⟩, _⟩ := hnm
      split at h
      · split at h
        · cases h
        · cases h
          intro x hx
          rcases mem_insertS.1 hx with hx' | rfl
          · exact hinv x hx'
          · exact hnU
      · cases h
        intro x hx hx'
        rcases mem_insertS.1 hx' with hx'' | rfl
        · exact hinv x hx hx''
        · exact hnA hx
      · cases h
        exact hinv
      · split at h
        · cases h
        · cases h
          intro x hx hx'
          rcases mem_insertS.1 hx' with hx'' | rfl
          · exact hinv x hx hx''
          · exact hnA hx
      · cases h
  · cases h
    exact hinv

lemma processFiles_disjAU {url : String} :
    ∀ {fs : List GithubCommitFile} {st st' : DeltaSets},
      DisjAU st → processFiles url st fs = .ok st' → DisjAU st'
  | [], _, _, hinv, h => by cases h; exact hinv
  | f :: fs, st, st', hinv, h => by
    unfold processFiles at h
    split at h
    · cases h
    · rename_i st₁ h₁
      exact processFiles_disjAU (processFile_disjAU hinv h₁) h

lemma processCommits_disjAU :
    ∀ {list : List CommitEntry} {st st' : DeltaSets},
      DisjAU st → processCommits st list = .ok st' → DisjAU st'
  | [], _, _, hinv, h => by cases h; exact hinv
  | c :: list, st, st', hinv, h => by
    unfold processCommits at h
    split at h
    · cases h
    · rename_i st₁ h₁
      exact processCommits_disjAU (processFiles_disjAU hinv h₁) h

/-- C5 (amended): at the end of the commit walk, `added ∩ modified = ∅` holds
unconditionally; and all three pairwise disjointness equations hold provided
no rename's previous filename coincides with a filename occurring in the
commits' file lists (the rename branch inserts `previous_filename` into the
removed set without the membership check that guards every other insertion,
which is the single way a filename can land in two sets). -/
theorem c5_delta_disjointness (commits : List CommitEntry) (st : DeltaSets)
    (h : commitWalk commits = .ok st) :
    (∀ x ∈ st.toAddFiles, x ∉ st.toUpdateFiles) ∧
    ((∀ p ∈ renamePrevs commits, p ∉ allFilenames commits) →
      (∀ x ∈ st.toAddFiles, x ∉ st.toUpdateFiles) ∧
      (∀ x ∈ st.toAddFiles, x ∉ st.toDeleteFiles) ∧
      (∀ x ∈ st.toUpdateFiles, x ∉ st.toDeleteFiles)) := by
  unfold commitWalk at h
  split at h
  · cases h
  · constructor
    · refine processCommits_disjAU ?_ h
      intro x hx
      simp at hx
    · intro H
      have hinv : WalkInv commits st := by
        refine processCommits_walkInv H (fun c hc => mem_of_mem_processed hc) ?_ h
        refine ⟨⟨?_, ?_, ?_⟩, ?_, ?_⟩ <;> intro x hx <;> simp at hx
      exact hinv.1

/-- A commit for the C5 witness: an add, a plain removal and a rename whose
previous path never occurs as a current filename. -/
def c5WitnessCommit : CommitEntry :=
  ⟨⟨"https://api.github.com/commit/w", ⟨none, some ⟨⟨2025, 3, 1, 0, 0, 0⟩⟩⟩⟩,
    [⟨"advisories/unreviewed/2025/03/GHSA-aaaa-aaaa-aaaa/GHSA-aaaa-aaaa-aaaa.json",
        .added, some "@@ patch", none⟩,
     ⟨"advisories/unreviewed/2025/03/GHSA-bbbb-bbbb-bbbb/GHSA-bbbb-bbbb-bbbb.json",
        .removed, none, none⟩,
     ⟨"advisories/unreviewed/2025/03/GHSA-cccc-cccc-cccc/GHSA-cccc-cccc-cccc.json",
        .renamed, none,
        some "advisories/unreviewed/2025/03/GHSA-old0-old0-old0/GHSA-old0-old0-old0.json"⟩]⟩

set_option maxRecDepth 16384 in
/-- Witness for C5 on `c5WitnessCommit`: the walk succeeds and both the
unconditional and the conditional disjointness conclusions are obtained from
`c5_delta_disjointness`, discharging its hypotheses on this concrete input. -/
theorem c5_delta_disjointness_witness :
    (∀ x ∈ (["advisories/unreviewed/2025/03/GHSA-aaaa-aaaa-aaaa/GHSA-aaaa-aaaa-aaaa.json"] :
        List String),
      x ∉ ["advisories/unreviewed/2025/03/GHSA-cccc-cccc-cccc/GHSA-cccc-cccc-cccc.json"]) ∧
    (∀ x ∈ (["advisories/unreviewed/2025/03/GHSA-aaaa-aaaa-aaaa/GHSA-aaaa-aaaa-aaaa.json"] :
        List String),
      x ∉ ["advisories/unreviewed/2025/03/GHSA-bbbb-bbbb-bbbb/GHSA-bbbb-bbbb-bbbb.json",
           "advisories/unreviewed/2025/03/GHSA-old0-old0-old0/GHSA-old0-old0-old0.json"]) ∧
    (∀ x ∈ (["advisories/unreviewed/2025/03/GHSA-cccc-cccc-cccc/GHSA-cccc-cccc-cccc.json"] :
        List String),
      x ∉ ["advisories/unreviewed/2025/03/GHSA-bbbb-bbbb-bbbb/GHSA-bbbb-bbbb-bbbb.json",
           "advisories/unreviewed/2025/03/GHSA-old0-old0-old0/GHSA-old0-old0-old0.json"]) := by
  have h := c5_delta_disjointness [c5WitnessCommit]
    ⟨["advisories/unreviewed/2025/03/GHSA-aaaa-aaaa-aaaa/GHSA-aaaa-aaaa-aaaa.json"],
     ["advisories/unreviewed/2025/03/GHSA-cccc-cccc-cccc/GHSA-cccc-cccc-cccc.json"],
     ["advisories/unreviewed/2025/03/GHSA-bbbb-bbbb-bbbb/GHSA-bbbb-bbbb-bbbb.json",
      "advisories/unreviewed/2025/03/GHSA-old0-old0-old0/GHSA-old0-old0-old0.json"],
     0⟩ rfl
  exact h.2 (by decide)

/-! ## Store operation `add_new_update_and_delete` (`csv_postgres_integration.rs`) -/

/-- A live-table row: `(id, published, modified, data)` with `id` as primary key. -/
structure DbRow where
  id : String
  published : String
  modified : String
  data : String
deriving DecidableEq, Repr

/-- The id column of a table (tables are row lists with pairwise distinct ids). -/
def idsOf (t : List DbRow) : List String := t.map (·.id)

/-- Model of `execute_delete_entries_by_id_slow` (`db_api/delete.rs`):
`DELETE FROM table WHERE id = ANY($1)`, returning the remaining table and the
affected row count. -/
def executeDeleteEntriesByIdSlow (t : List DbRow) (idsToDelete : List String) :
    List DbRow × Nat :=
  (t.filter fun r => !(idsToDelete.contains r.id),
   (t.filter fun r => idsToDelete.contains r.id).length)

/-- One staged row of `INSERT ... ON CONFLICT (id) DO UPDATE SET published =
excluded.published, modified = excluded.modified, data = excluded.data`
(`replace_entries_query`): replace the conflicting row in place, else append. -/
def upsertRow (t : List DbRow) (r : DbRow) : List DbRow :=
  if t.any fun x => x.id == r.id then
    t.map fun x => if x.id == r.id then r else x
  else t ++ [r]

/-- The whole `INSERT ... SELECT * FROM staging ON CONFLICT (id) DO UPDATE`
statement, row by staged row. -/
def insertAndReplaceAny (t : List DbRow) (staging : List DbRow) : List DbRow :=
  staging.foldl upsertRow t

/-- Abort conditions of `add_new_update_and_delete`: the
`assert_eq!(deleted_rows, to_delete_entries.len())` panic, and Postgres's
"ON CONFLICT DO UPDATE command cannot affect row a second time" error raised
when the staging rows (the two copied files) carry a duplicate id. -/
inductive DbError where
  | assertDeletedCountMismatch
  | onConflictAffectsRowTwice
deriving DecidableEq, Repr

/-- Model of `add_new_update_and_delete`: inside one transaction, delete by
ids (asserting the affected count equals the requested list length), create
the staging temp table, copy the new-rows file and then the updated-rows file
into it, and apply the upsert into the live table. -/
def addNewUpdateAndDelete (t : List DbRow) (newRows updatedRows : List DbRow)
    (toDeleteEntries : List String) : Except DbError (List DbRow) :=
  let deleted := executeDeleteEntriesByIdSlow t toDeleteEntries
  if deleted.2 ≠ toDeleteEntries.length then .error .assertDeletedCountMismatch
  else
    let staging := newRows ++ updatedRows
    if (idsOf staging).Nodup then .ok (insertAndReplaceAny deleted.1 staging)
    else .error .onConflictAffectsRowTwice

/-- The id set the claim says the live table holds afterwards:
`(live_before ∪ D_add ∪ D_upd) \ D_del`, materialised as a list. -/
def claimedIdsAfter (t : List DbRow) (newRows updatedRows : List DbRow)
    (toDeleteEntries : List String) : List String :=
  (idsOf t ++ idsOf newRows ++ idsOf updatedRows).filter
    fun x => !(toDeleteEntries.contains x)

/-- C4 counterexample: with `live_before = [X]`, `D_add = ∅`,
`D_upd = [X with new values]`, `D_del = [X]` — precisely the rename that
keeps the advisory id — the code deletes X first and then re-inserts the
staged X, so X is live afterwards, while the claimed set
`(live_before ∪ D_add ∪ D_upd) \ D_del` does not contain X. -/
theorem c4_add_update_delete_counterexample :
    addNewUpdateAndDelete [⟨"GHSA-xxxx-xxxx-xxxx", "p0", "m0", "d0"⟩] []
        [⟨"GHSA-xxxx-xxxx-xxxx", "p1", "m1", "d1"⟩] ["GHSA-xxxx-xxxx-xxxx"]
      = .ok [⟨"GHSA-xxxx-xxxx-xxxx", "p1", "m1", "d1"⟩] ∧
    "GHSA-xxxx-xxxx-xxxx" ∈
      idsOf [⟨"GHSA-xxxx-xxxx-xxxx", "p1", "m1", "d1"⟩] ∧
    "GHSA-xxxx-xxxx-xxxx" ∉
      claimedIdsAfter [⟨"GHSA-xxxx-xxxx-xxxx", "p0", "m0", "d0"⟩] []
        [⟨"GHSA-xxxx-xxxx-xxxx", "p1", "m1", "d1"⟩] ["GHSA-xxxx-xxxx-xxxx"] := by
  refine ⟨by rfl, by simp [idsOf], ?_⟩
  intro hmem
  simp [claimedIdsAfter, idsOf, List.mem_filter] at hmem

/-- Lookup of a live row by id (`SELECT ... WHERE id = s` on a table whose ids
are unique). -/
def findById (t : List DbRow) (s : String) : Option DbRow :=
  t.find? fun r => r.id == s

lemma deleted_count_eq (t : List DbRow) (del : List String)
    (hnod : (idsOf t).Nodup) (hdelnod : del.Nodup)
    (hdel : ∀ d ∈ del, d ∈ idsOf t) :
    (t.filter fun r => del.contains r.id).length = del.length := by
  have hmapfil : List.filter (fun x => del.contains x) (List.map (·.id) t)
      = List.map (·.id) (List.filter ((fun x => del.contains x) ∘ (·.id)) t) :=
    List.filter_map (·.id) t
  have h1 : ((idsOf t).filter fun x => del.contains x).Nodup := hnod.filter _
  have h2 : ∀ x, (x ∈ (idsOf t).filter fun y => del.contains y) ↔ x ∈ del := by
    intro x
    rw [List.mem_filter]
    constructor
    · rintro ⟨-, hx⟩
      exact List.elem_iff.1 hx
    · intro hx
      exact ⟨hdel x hx, List.elem_iff.2 hx⟩
  have hperm := (List.perm_ext_iff_of_nodup h1 hdelnod).2 h2
  have hlen := hperm.length_eq
  rw [idsOf] at hlen
  rw [hmapfil, List.length_map] at hlen
  simpa [Function.comp] using hlen

lemma mem_idsOf_afterDelete {t : List DbRow} {del : List String} {x : String} :
    (x ∈ idsOf (t.filter fun r => !(del.contains r.id))) ↔
      x ∈ idsOf t ∧ x ∉ del := by
  constructor
  · intro hx
    obtain ⟨r, hr, rfl⟩ := List.mem_map.1 hx
    obtain ⟨hrt, hrp⟩ := List.mem_filter.1 hr
    refine ⟨List.mem_map_of_mem _ hrt, ?_⟩
    intro hmem
    have hcontains : (del.contains r.id) = true := List.elem_iff.2 hmem
    rw [hcontains] at hrp
    simp at hrp
  · rintro ⟨hx, hnd⟩
    obtain ⟨r, hr, rfl⟩ := List.mem_map.1 hx
    refine List.mem_map_of_mem _ (List.mem_filter.2 ⟨hr, ?_⟩)
    simp [List.elem_iff, hnd]

lemma mem_idsOf_upsertRow {t : List DbRow} {r : DbRow} {x : String} :
    x ∈ idsOf (upsertRow t r) ↔ x ∈ idsOf t ∨ x = r.id := by
  unfold upsertRow
  split
  · rename_i hany
    obtain ⟨y0, hy0t, hy0⟩ : ∃ y ∈ t, (y.id == r.id) = true := by simpa using hany
    have hy0' : y0.id = r.id := by simpa using hy0
    simp only [idsOf, List.map_map, List.mem_map, Function.comp]
    constructor
    · rintro ⟨y, hy, hxy⟩
      by_cases hc : y.id = r.id
      · right
        rw [← hxy]
        simp [hc]
      · left
        exact ⟨y, hy, by simpa [hc] using hxy⟩
    · rintro (⟨y, hy, rfl⟩ | rfl)
      · by_cases hc : y.id = r.id
        · exact ⟨y, hy, by simp [hc]⟩
        · exact ⟨y, hy, by simp [hc]⟩
      · exact ⟨y0, hy0t, by simp [hy0']⟩
  · simp [idsOf]

lemma mem_idsOf_insertAndReplaceAny :
    ∀ {staging t : List DbRow} {x : String},
      x ∈ idsOf (insertAndReplaceAny t staging) ↔ x ∈ idsOf t ∨ x ∈ idsOf staging
  | [], t, x => by simp [insertAndReplaceAny, idsOf]
  | r :: rest, t, x => by
    show x ∈ idsOf (insertAndReplaceAny (upsertRow t r) rest) ↔ _
    rw [mem_idsOf_insertAndReplaceAny, mem_idsOf_upsertRow]
    simp only [idsOf, List.map_cons, List.mem_cons]
    tauto

lemma find_map_upsert {r : DbRow} :
    ∀ {t : List DbRow}, (∃ y ∈ t, y.id = r.id) →
      ((t.map fun x => if x.id == r.id then r else x).find? fun x => x.id == r.id)
        = some r
  | [], h => by simp at h
  | y :: ys, h => by
    by_cases hc : y.id = r.id
    · have hmap : ((y :: ys).map fun x => if x.id == r.id then r else x)
          = r :: (ys.map fun x => if x.id == r.id then r else x) := by
        simp [hc]
      rw [hmap, List.find?_cons_of_pos _ (by simp)]
    · have hmap : ((y :: ys).map fun x => if x.id == r.id then r else x)
          = y :: (ys.map fun x => if x.id == r.id then r else x) := by
        simp [hc]
      have h' : ∃ z ∈ ys, z.id = r.id := by
        rcases h with ⟨z, hz, hzz⟩
        rcases List.mem_cons.1 hz with rfl | hz'
        · exact absurd hzz hc
        · exact ⟨z, hz', hzz⟩
      rw [hmap, List.find?_cons_of_neg _ (by simp [hc])]
      exact find_map_upsert h'

lemma find_map_upsert_other {r : DbRow} {s : String} (hne : s ≠ r.id) :
    ∀ {t : List DbRow},
      ((t.map fun x => if x.id == r.id then r else x).find? fun x => x.id == s)
        = t.find? fun x => x.id == s
  | [] => by simp
  | y :: ys => by
    by_cases hc : y.id = r.id
    · have hmap : ((y :: ys).map fun x => if x.id == r.id then r else x)
          = r :: (ys.map fun x => if x.id == r.id then r else x) := by
        simp [hc]
      have h2 : (y.id == s) = false := by
        rw [hc]
        exact beq_eq_false_iff_ne.2 (Ne.symm hne)
      rw [hmap, List.find?_cons_of_neg _ (by simpa using Ne.symm hne),
        List.find?_cons_of_neg _ (by simp [h2])]
      exact find_map_upsert_other hne
    · have hmap : ((y :: ys).map fun x => if x.id == r.id then r else x)
          = y :: (ys.map fun x => if x.id == r.id then r else x) := by
        simp [hc]
      rw [hmap]
      by_cases hys : y.id = s
      · rw [List.find?_cons_of_pos _ (by simp [hys]),
          List.find?_cons_of_pos _ (by simp [hys])]
      · rw [List.find?_cons_of_neg _ (by simp [hys]),
          List.find?_cons_of_neg _ (by simp [hys])]
        exact find_map_upsert_other hne

lemma findById_upsertRow_self (t : List DbRow) (r : DbRow) :
    findById (upsertRow t r) r.id = some r := by
  unfold findById upsertRow
  split
  · rename_i hany
    exact find_map_upsert (by simpa using hany)
  · rename_i hany
    have hnone : ∀ y ∈ t, ¬ (y.id == r.id) = true := by simpa using hany
    rw [List.find?_append, List.find?_eq_none.2 hnone]
    simp

lemma findById_upsertRow_other (t : List DbRow) (r : DbRow) (s : String)
    (hne : s ≠ r.id) : findById (upsertRow t r) s = findById t s := by
  unfold findById upsertRow
  split
  · exact find_map_upsert_other hne
  · rw [List.find?_append]
    have h1 : (r.id == s) = false := beq_eq_false_iff_ne.2 (Ne.symm hne)
    simp [List.find?, h1]

lemma findById_fold_untouched :
    ∀ {staging t : List DbRow} {s : String}, (∀ r ∈ staging, r.id ≠ s) →
      findById (insertAndReplaceAny t staging) s = findById t s
  | [], _, _, _ => rfl
  | r :: rest, t, s, h => by
    show findById (insertAndReplaceAny (upsertRow t r) rest) s = _
    rw [findById_fold_untouched fun r' hr' => h r' (List.mem_cons_of_mem _ hr')]
    exact findById_upsertRow_other t r s
      (Ne.symm (h r (List.mem_cons_self r rest)))

lemma findById_insertAndReplaceAny :
    ∀ {staging t : List DbRow}, (idsOf staging).Nodup →
      ∀ r ∈ staging, findById (insertAndReplaceAny t staging) r.id = some r
  | [], _, _, r, hr => by simp at hr
  | q :: rest, t, hnod, r, hr => by
    have hnod' : q.id ∉ idsOf rest ∧ (idsOf rest).Nodup := by
      simpa only [idsOf, List.map_cons, List.nodup_cons] using hnod
    rcases List.mem_cons.1 hr with rfl | hr'
    · show findById (insertAndReplaceAny (upsertRow t r) rest) r.id = some r
      rw [findById_fold_untouched ?_]
      · exact findById_upsertRow_self t r
      · intro r' hr'' heq
        exact hnod'.1 (heq ▸ List.mem_map_of_mem _ hr'')
    · exact findById_insertAndReplaceAny hnod'.2 r hr'

/-- C4 (amended): provided the live table's ids are unique, the two staged
files carry no duplicate id between them, and the delete list is a
duplicate-free subset of the live ids (the source asserts the deleted count),
`add_new_update_and_delete` commits with live ids equal to
`(live_before \ D_del) ∪ D_add ∪ D_upd` — deletion happens BEFORE the staged
upsert, so an id occurring both in D_del and in D_upd (a rename keeping the
advisory id) stays live — and every staged row is retrievable by its id with
its staged `published`/`modified`/`data` values. -/
theorem c4_add_update_delete (t newRows updatedRows : List DbRow)
    (del : List String)
    (h1 : (idsOf t).Nodup)
    (h2 : (idsOf (newRows ++ updatedRows)).Nodup)
    (h3 : del.Nodup)
    (h4 : ∀ d ∈ del, d ∈ idsOf t) :
    ∃ t', addNewUpdateAndDelete t newRows updatedRows del = .ok t' ∧
      (∀ x, x ∈ idsOf t' ↔
        ((x ∈ idsOf t ∧ x ∉ del) ∨ x ∈ idsOf newRows ∨ x ∈ idsOf updatedRows)) ∧
      (∀ r ∈ newRows ++ updatedRows, findById t' r.id = some r) := by
  have hcount := deleted_count_eq t del h1 h3 h4
  refine ⟨insertAndReplaceAny (t.filter fun r => !(del.contains r.id))
      (newRows ++ updatedRows), ?_, ?_, ?_⟩
  · unfold addNewUpdateAndDelete executeDeleteEntriesByIdSlow
    rw [if_neg (by simp only [ne_eq, not_not]; exact hcount), if_pos h2]
  · intro x
    rw [mem_idsOf_insertAndReplaceAny, mem_idsOf_afterDelete]
    simp only [idsOf, List.map_append, List.mem_append]
  · intro r hr
    exact findById_insertAndReplaceAny h2 r hr

/-- Witness for C4 on a concrete table: live rows `A`, `B`; one new row `C`;
one updated row for `B` whose id is also deleted (the rename shape); all four
hypotheses discharged by computation. -/
theorem c4_add_update_delete_witness :
    ∃ t', addNewUpdateAndDelete
        [⟨"A", "p", "m", "d"⟩, ⟨"B", "p", "m", "d"⟩]
        [⟨"C", "pc", "mc", "dc"⟩] [⟨"B", "pb", "mb", "db"⟩] ["B"] = .ok t' ∧
      (∀ x, x ∈ idsOf t' ↔
        ((x ∈ idsOf [⟨"A", "p", "m", "d"⟩, ⟨"B", "p", "m", "d"⟩] ∧
            x ∉ ["B"]) ∨
          x ∈ idsOf [⟨"C", "pc", "mc", "dc"⟩] ∨
          x ∈ idsOf [⟨"B", "pb", "mb", "db"⟩])) ∧
      (∀ r ∈ [⟨"C", "pc", "mc", "dc"⟩] ++ [⟨"B", "pb", "mb", "db"⟩],
        findById t' r.id = some r) :=
  c4_add_update_delete _ _ _ _ (by decide) (by decide) (by decide) (by decide)

/-! ## GitHub variant table-name selection (`scrape_mod/github/mod.rs`) -/

/-- Model of `GithubType` ("malware" unimplemented in the source too). -/
inductive GithubType where
  | Reviewed
  | Unreviewed
deriving DecidableEq, Repr

/-- Model of `ConfigGithubApi` (`config.rs`). -/
structure ConfigGithubApi where
  url : String
  reviewed_table_name : String
  unreviewed_table_name : String
  reviewed_incomplete_table_name : String
  unreviewed_incomplete_table_name : String
  enable_update_reviewed : Bool
  enable_update_unreviewed : Bool
deriving DecidableEq, Repr

/-- Model of `GithubType::api_table_name`, transcribed as the source has it:
BOTH match arms return `config.github.api.reviewed_table_name`. -/
def GithubType.apiTableName : GithubType → ConfigGithubApi → String
  | .Reviewed, config => config.reviewed_table_name
  | .Unreviewed, config => config.reviewed_table_name

/-- Model of `GithubType::api_initialization_table_name`, which does
distinguish the two variants. -/
def GithubType.apiInitializationTableName : GithubType → ConfigGithubApi → String
  | .Reviewed, config => config.reviewed_incomplete_table_name
  | .Unreviewed, config => config.unreviewed_incomplete_table_name

/-- The GitHub-API table that `rest_api.rs::sync` reads and writes for a
variant: both the incremental update (`insert_and_replace_any...` at the end
of `sync`) and the final table of `download_all_entries` use
`ty.api_table_name(config)`. -/
def syncApiTable (ty : GithubType) (config : ConfigGithubApi) : String :=
  ty.apiTableName config

/-- A configuration whose two GitHub-API table names differ. -/
def c3Config : ConfigGithubApi :=
  ⟨"https://api.github.com/advisories", "github_api_reviewed",
    "github_api_unreviewed", "github_api_reviewed_incomplete",
    "github_api_unreviewed_incomplete", true, true⟩

/-- C3 (code bug): with distinct configured names, the sync of the Unreviewed
variant reads and writes the REVIEWED table: `api_table_name` returns
`config.github.api.reviewed_table_name` for both variants, so the two
variants share one table instead of keeping one table each (the
initialization tables, by contrast, are distinguished correctly). -/
theorem c3_api_table_name_bug :
    syncApiTable .Unreviewed c3Config = "github_api_reviewed" ∧
    syncApiTable .Unreviewed c3Config ≠ c3Config.unreviewed_table_name ∧
    GithubType.apiInitializationTableName .Unreviewed c3Config
      = c3Config.unreviewed_incomplete_table_name := by
  refine ⟨rfl, ?_, rfl⟩
  decide

/-! ## Scraper state save (`state.rs`) -/

/-- Filesystem operations performed by the state save, in order. -/
inductive FsOp where
  | createFile (path : String)
  | writeAll (path : String) (contents : String)
  | flush (path : String)
  | copyFile (src : String) (dst : String)
  | renameFile (src : String) (dst : String)
deriving DecidableEq, Repr

/-- Whether an operation is a rename. -/
def FsOp.isRename : FsOp → Bool
  | .renameFile _ _ => true
  | _ => false

/-- Model of `ScraperState::save_err` as the sequence of filesystem
operations it performs: create `<temp_dir>/config_status.json`, write the
full serialized state document through a buffered writer, flush, then
transfer it onto the configured state path with `fs::copy`. -/
def saveErrTrace (tempDirPath stateFileLocation serializedState : String) :
    List FsOp :=
  let ownConfigLocationTemp := tempDirPath ++ "/" ++ "config_status.json"
  [.createFile ownConfigLocationTemp,
   .writeAll ownConfigLocationTemp serializedState,
   .flush ownConfigLocationTemp,
   .copyFile ownConfigLocationTemp stateFileLocation]

/-- C6 counterexample: a concrete save performs no rename at all; its final
operation is an `fs::copy` of the temp file onto the live state path, which
rewrites the destination in place instead of atomically replacing it. -/
theorem c6_state_save_counterexample :
    ((saveErrTrace "/tmp/vex_hk" "/var/lib/vex_hk/state.json" "serialized").filter
        FsOp.isRename) = [] ∧
    (saveErrTrace "/tmp/vex_hk" "/var/lib/vex_hk/state.json" "serialized").getLast?
      = some (.copyFile "/tmp/vex_hk/config_status.json"
          "/var/lib/vex_hk/state.json") := by
  exact ⟨rfl, rfl⟩

/-- C6 (amended): every save writes the full serialized document to
`<temp_dir>/config_status.json` and then transfers it onto the configured
state path with `fs::copy` — no rename occurs, so the live file is rewritten
rather than atomically replaced. -/
theorem c6_state_save_copies_not_renames
    (tempDirPath stateFileLocation serializedState : String) :
    (∀ op ∈ saveErrTrace tempDirPath stateFileLocation serializedState,
      op.isRename = false) ∧
    (saveErrTrace tempDirPath stateFileLocation serializedState).getLast?
      = some (.copyFile (tempDirPath ++ "/" ++ "config_status.json")
          stateFileLocation) ∧
    FsOp.writeAll (tempDirPath ++ "/" ++ "config_status.json") serializedState
      ∈ saveErrTrace tempDirPath stateFileLocation serializedState := by
  refine ⟨?_, rfl, by simp [saveErrTrace]⟩
  intro op hop
  simp only [saveErrTrace, List.mem_cons, List.not_mem_nil, or_false] at hop
  rcases hop with rfl | rfl | rfl | rfl <;> rfl

/-! ## OSV incremental update (`scrape_mod/osv/update.rs`) -/

/-- Model of `EntryStatus` (`db_api/structs.rs`): the id and the store's
verdict string for one input entry. -/
structure EntryStatus where
  id : String
  status : String
deriving DecidableEq, Repr

/-- Model of `ScraperStateOsv` (`state.rs`). -/
structure ScraperStateOsv where
  initialized : Bool
  lastUpdateTimestamp : Option Date
deriving DecidableEq, Repr

/-- The collection loop of `scrape_osv_update`: ids with status "Input is
more recent" are pushed onto `remove`; for entries with that status or
"Entry does not exist" the advisory is fetched (`need_to_add` lookup then
`fetch_osv_details`, both fallible) into `osvs`. -/
def collectOsvUpdates (needToAdd : String → Option String)
    (fetchOsvDetails : String → Option OsvRecord) :
    List EntryStatus → Except String (List String × List OsvRecord)
  | [] => .ok ([], [])
  | miss :: rest =>
    let removeHere : List String :=
      if miss.status = "Input is more recent" then [miss.id] else []
    if miss.status = "Input is more recent" ∨ miss.status = "Entry does not exist" then
      match needToAdd miss.id with
      | none => .error ("No entry found in need_to_add for id: " ++ miss.id)
      | some loc =>
        match fetchOsvDetails loc with
        | none => .error "Error in fetching osv details"
        | some osv =>
          match collectOsvUpdates needToAdd fetchOsvDetails rest with
          | .error e => .error e
          | .ok (removeRest, osvsRest) =>
            .ok (removeHere ++ removeRest, osv :: osvsRest)
    else
      match collectOsvUpdates needToAdd fetchOsvDetails rest with
      | .error e => .error e
      | .ok (removeRest, osvsRest) => .ok (removeHere ++ removeRest, osvsRest)

/-- Model of `scrape_osv_update`'s effect on the OSV table: the loop collects
`remove` and `osvs`, but the store mutations — `remove_entries_id` for the
"Input is more recent" rows and `insert_parallel` for the fetched advisories
— are commented out in the source; the lists are only printed, and on success
the table is returned unchanged. -/
def scrapeOsvUpdate (needToAdd : String → Option String)
    (fetchOsvDetails : String → Option OsvRecord)
    (missingIds : List EntryStatus) (table : List DbRow) :
    Except String (List DbRow) :=
  match collectOsvUpdates needToAdd fetchOsvDetails missingIds with
  | .error e => .error e
  | .ok _ => .ok table

/-- Model of `manual_update_and_save_state`: guard `initialized` and the
stored timestamp, run `scrape_osv_update`, then `save_osv` advances
`last_update_timestamp` to the run's start time (and keeps `initialized`). -/
def manualUpdateAndSaveState (state : ScraperStateOsv)
    (needToAdd : String → Option String)
    (fetchOsvDetails : String → Option OsvRecord)
    (missingIds : List EntryStatus) (table : List DbRow) (startTime : Date) :
    Except String (List DbRow × ScraperStateOsv) :=
  if !state.initialized then
    .error "OSV is not initialized. Perform a full download first."
  else
    match state.lastUpdateTimestamp with
    | none => .error "last_timestamp is missing. This may be a bug."
    | some _ =>
      match scrapeOsvUpdate needToAdd fetchOsvDetails missingIds table with
      | .error e => .error e
      | .ok table' => .ok (table', ⟨true, some startTime⟩)

/-- The `need_to_add` oracle for the C2 run: one sitemap entry. -/
def c2NeedToAdd : String → Option String := fun id =>
  if id = "CVE-2024-0001" then some "https://osv.dev/vulnerability/CVE-2024-0001"
  else none

/-- The fetch oracle for the C2 run: the advisory's fresh content. -/
def c2Fetch : String → Option OsvRecord := fun loc =>
  if loc = "https://osv.dev/vulnerability/CVE-2024-0001" then
    some ⟨"CVE-2024-0001", ⟨2025, 5, 1, 0, 0, 0⟩, none, "fresh-payload"⟩
  else none

/-- The stale stored row for the C2 run. -/
def c2OldRow : DbRow :=
  ⟨"CVE-2024-0001", "2020-01-01T00:00:00+00:00", "2020-01-01T00:00:00+00:00",
    "stale-data"⟩

/-- C2 (code bug): a successful incremental run whose single input entry has
status "Input is more recent" leaves the stale row in the OSV table — the
delete and insert are commented out in `scrape_osv_update` (which only prints
the collected lists), contradicting the function's own documentation — while
`manual_update_and_save_state` still advances the state's
`last_update_timestamp` to the run's start time. -/
theorem c2_osv_update_is_noop :
    manualUpdateAndSaveState ⟨true, some ⟨2025, 4, 1, 0, 0, 0⟩⟩ c2NeedToAdd c2Fetch
        [⟨"CVE-2024-0001", "Input is more recent"⟩] [c2OldRow]
        ⟨2025, 6, 1, 0, 0, 0⟩
      = .ok ([c2OldRow], ⟨true, some ⟨2025, 6, 1, 0, 0, 0⟩⟩) ∧
    findById [c2OldRow] "CVE-2024-0001" = some c2OldRow := by
  exact ⟨rfl, rfl⟩

/-! ## Per-file fetch phase of the commit differ (`repository_update.rs`) -/

/-- Model of `GithubType::path_str`. -/
def GithubType.pathStr : GithubType → String
  | .Reviewed => "github-reviewed"
  | .Unreviewed => "unreviewed"

/-- Model of `get_file_type_from_filename`: skip the 11-byte `advisories/`
prefix, take the segment up to the next `/`, and compare it against the two
`path_str` values; the panics (no slash found, unknown type text) are
modelled as `none`. -/
def getFileTypeFromFilename (filename : String) : Option GithubType :=
  let rest := filename.drop 11
  if rest.data.contains '/' then
    let typeText : String := ⟨rest.data.takeWhile (fun c => c != '/')⟩
    if typeText = GithubType.Reviewed.pathStr then some .Reviewed
    else if typeText = GithubType.Unreviewed.pathStr then some .Unreviewed
    else none
  else none

/-- Outcome of one `get_single_osv_file_data` call, as seen by the caller:
the parsed advisory, an HTTP 404 (`SingleFileError::NotFound`), or another
reqwest failure. -/
inductive SingleFileFetchResult where
  | okFile (osv : OsvRecord)
  | notFound
  | reqwestError
deriving Repr

/-- How the fetch phase of `update_osv` can abort. -/
inductive FetchPhaseError where
  | notFound (url : String)
  | reqwest
  | invalidFilename
  | idTooLong
deriving DecidableEq, Repr

/-- The rows written to the two updated-files CSV writers. -/
structure UpdateRowsOutput where
  reviewedRows : List (List String)
  unreviewedRows : List (List String)
deriving DecidableEq, Repr

/-- Model of the "Downloading updated files" loop of `update_osv`: for each
filename of the modified set, classify it, build `files_url ++ filename`,
call `get_single_osv_file_data` — whose 404 result is propagated by the `?`
operator, aborting the loop — assert the GitHub id length and append the
encoded row to the writer of the file's variant. -/
def fetchModifiedPhase (serialize : OsvRecord → String) (filesUrl : String)
    (fetch : String → SingleFileFetchResult) :
    List String → UpdateRowsOutput → Except FetchPhaseError UpdateRowsOutput
  | [], out => .ok out
  | filename :: rest, out =>
    match getFileTypeFromFilename filename with
    | none => .error .invalidFilename
    | some ty =>
      match fetch (filesUrl ++ filename) with
      | .notFound => .error (.notFound (filesUrl ++ filename))
      | .reqwestError => .error .reqwest
      | .okFile osv =>
        if osv.id.length > 19 then .error .idTooLong
        else
          match ty with
          | .Reviewed =>
            fetchModifiedPhase serialize filesUrl fetch rest
              { out with reviewedRows :=
                  out.reviewedRows ++ [(GeneralizedCsvRecord.fromOsv serialize osv).asRow] }
          | .Unreviewed =>
            fetchModifiedPhase serialize filesUrl fetch rest
              { out with unreviewedRows :=
                  out.unreviewedRows ++ [(GeneralizedCsvRecord.fromOsv serialize osv).asRow] }

/-- The configured single-file endpoint prefix used in the C7 scenario. -/
def c7FilesUrl : String :=
  "https://api.github.com/repos/github/advisory-database/contents/"

/-- First modified filename of the C7 scenario (its fetch returns 404). -/
def c7File1 : String :=
  "advisories/github-reviewed/2025/04/GHSA-1111-2222-3333/GHSA-1111-2222-3333.json"

/-- Second modified filename of the C7 scenario (its fetch would succeed). -/
def c7File2 : String :=
  "advisories/unreviewed/2025/04/GHSA-4444-5555-6666/GHSA-4444-5555-6666.json"

/-- Fetch oracle of the C7 scenario: 404 for the first file, a parsed
advisory for everything else. -/
def c7Fetch : String → SingleFileFetchResult := fun url =>
  if url = c7FilesUrl ++ c7File1 then .notFound
  else .okFile ⟨"GHSA-4444-5555-6666", ⟨2025, 4, 2, 0, 0, 0⟩, none, "payload"⟩

set_option maxRecDepth 8192 in
/-- C7 counterexample: a 404 on the first modified file makes the fetch phase
return the propagated `NotFound` error — the remaining files are not
processed and `update_osv` fails — rather than logging and skipping the file
as the claim states (that behavior lives in
`individual_rep_osv.rs::download_repository_files_into_osv_from_list_incremental`,
not in `update_osv`). -/
theorem c7_modified_fetch_404_counterexample :
    fetchModifiedPhase (fun o => o.payload) c7FilesUrl c7Fetch [c7File1, c7File2]
        ⟨[], []⟩
      = .error (.notFound (c7FilesUrl ++ c7File1)) := by
  rfl

/-- C7 (amended): the fetch phase succeeds only if NO file of the modified
set fetched 404 — `get_single_osv_file_data`'s `NotFound` is propagated by
`?` and aborts `update_osv` instead of being logged and skipped. -/
theorem c7_modified_fetch_no_skip (serialize : OsvRecord → String)
    (filesUrl : String) (fetch : String → SingleFileFetchResult) :
    ∀ (files : List String) (out res : UpdateRowsOutput),
      fetchModifiedPhase serialize filesUrl fetch files out = .ok res →
      ∀ f ∈ files, fetch (filesUrl ++ f) ≠ .notFound
  | [], _, _, _, f, hf => by simp at hf
  | filename :: rest, out, res, h, f, hf => by
    unfold fetchModifiedPhase at h
    split at h
    · cases h
    · rename_i ty hty
      split at h
      · cases h
      · cases h
      · rename_i osv hosv
        split at h
        · cases h
        · rcases List.mem_cons.1 hf with rfl | hf'
          · intro hcontra
            rw [hcontra] at hosv
            cases hosv
          · split at h
            · exact c7_modified_fetch_no_skip serialize filesUrl fetch rest _ res h f hf'
            · exact c7_modified_fetch_no_skip serialize filesUrl fetch rest _ res h f hf'

set_option maxRecDepth 8192 in
/-- Witness for C7: a run whose single modified file fetches successfully;
the theorem applied at it shows its fetch was not a 404. -/
theorem c7_modified_fetch_no_skip_witness :
    c7Fetch (c7FilesUrl ++ c7File2) ≠ .notFound :=
  c7_modified_fetch_no_skip (fun o => o.payload) c7FilesUrl c7Fetch [c7File2]
    ⟨[], []⟩
    ⟨[], [["GHSA-4444-5555-6666", "2025-04-02T00:00:00+00:00",
           "2025-04-02T00:00:00+00:00", "payload"]]⟩ (by rfl)
    c7File2 (List.mem_singleton.2 rfl)

/-! ## Archive-to-rows transformers (`osv/full.rs` and `github/repository.rs`) -/

/-- A ZIP archive entry: its name and its byte content (as a string; the
source reads it into a reusable string buffer). -/
structure ZipEntry where
  name : String
  content : String
deriving DecidableEq, Repr

/-- Panics that abort a transformer batch: the `panic!("{file_i}: {err}")` on
a JSON parse failure in the OSV transformer, and the over-long-id panic of
both transformers. -/
inductive CsvCreationAbort where
  | jsonParseFailure (entryIndex : Nat)
  | idTooLong
deriving DecidableEq, Repr

/-- Model of the OSV bulk `create_csv` loop (`osv/full.rs`): entries not
ending in `.json` are skipped; a JSON parse failure logs the buffer and then
PANICS with the entry index; an id longer than 48 characters panics;
otherwise the encoded row is emitted and the processed count incremented. -/
def createCsvOsv (parse : String → Option OsvRecord)
    (serialize : OsvRecord → String) :
    List ZipEntry → Nat → List (List String) → Nat →
      Except CsvCreationAbort (List (List String) × Nat)
  | [], _, rows, count => .ok (rows, count)
  | e :: rest, fileIdx, rows, count =>
    if strEndsWith e.name ".json" then
      match parse e.content with
      | none => .error (.jsonParseFailure fileIdx)
      | some osv =>
        if osv.id.length > 48 then .error .idTooLong
        else
          createCsvOsv parse serialize rest (fileIdx + 1)
            (rows ++ [(GeneralizedCsvRecord.fromOsv serialize osv).asRow])
            (count + 1)
    else createCsvOsv parse serialize rest (fileIdx + 1) rows count

/-- Path-prefix classifier of the GitHub repository `create_csv`:
`some true` for reviewed, `some false` for unreviewed, `none` for entries
that are skipped. -/
def classifyGithubArchiveEntry (name : String) : Option Bool :=
  if strStartsWith name "advisory-database-main/advisories/github-reviewed" then
    some true
  else if strStartsWith name "advisory-database-main/advisories/unreviewed" then
    some false
  else none

/-- Model of the GitHub repository `create_csv` loop
(`github/repository.rs`): non-`.json` and unclassified entries are skipped;
a JSON parse failure logs the filename with "SKIPPING" and CONTINUES with the
next entry; an over-long GitHub id panics; otherwise the row goes to the
reviewed or unreviewed output and that count is incremented. -/
def createCsvGithub (parse : String → Option OsvRecord)
    (serialize : OsvRecord → String) :
    List ZipEntry → List (List String) → List (List String) → Nat → Nat →
      Except CsvCreationAbort ((List (List String) × List (List String)) × Nat × Nat)
  | [], revRows, unrevRows, revCount, unrevCount =>
    .ok ((revRows, unrevRows), revCount, unrevCount)
  | e :: rest, revRows, unrevRows, revCount, unrevCount =>
    if strEndsWith e.name ".json" then
      match classifyGithubArchiveEntry e.name with
      | none => createCsvGithub parse serialize rest revRows unrevRows revCount unrevCount
      | some reviewed =>
        match parse e.content with
        | none => createCsvGithub parse serialize rest revRows unrevRows revCount unrevCount
        | some osv =>
          if osv.id.length > 19 then .error .idTooLong
          else if reviewed then
            createCsvGithub parse serialize rest
              (revRows ++ [(GeneralizedCsvRecord.fromOsv serialize osv).asRow])
              unrevRows (revCount + 1) unrevCount
          else
            createCsvGithub parse serialize rest revRows
              (unrevRows ++ [(GeneralizedCsvRecord.fromOsv serialize osv).asRow])
              revCount (unrevCount + 1)
    else createCsvGithub parse serialize rest revRows unrevRows revCount unrevCount

/-- Parse oracle for the C8 runs: only the content "good" parses. -/
def c8Parse : String → Option OsvRecord := fun s =>
  if s = "good" then some ⟨"CVE-2025-1000", ⟨2025, 7, 1, 0, 0, 0⟩, none, "ok"⟩
  else none

/-- C8 counterexample: in the OSV bulk transformer a batch whose first entry
fails to parse ABORTS with a panic at that entry — the following valid entry
is never processed — instead of logging, skipping and continuing as the
claim states for both transformers. -/
theorem c8_osv_create_csv_panics_counterexample :
    createCsvOsv c8Parse (fun o => o.payload)
        [⟨"bad.json", "not json"⟩, ⟨"good.json", "good"⟩] 0 [] 0
      = .error (.jsonParseFailure 0) := by
  rfl

/-- C8 (amended): the two transformers diverge on parse failures.  The
GitHub repository transformer skips a classified `.json` entry whose content
fails to parse and continues identically to a batch without it; the OSV bulk
transformer, however, only ever succeeds when EVERY `.json` entry parses —
a parse failure panics and aborts the batch. -/
theorem c8_parse_failure_handling (parse : String → Option OsvRecord)
    (serialize : OsvRecord → String) :
    (∀ (bad : ZipEntry) (rest : List ZipEntry) (revRows unrevRows : List (List String))
        (revCount unrevCount : Nat),
      strEndsWith bad.name ".json" = true →
      (classifyGithubArchiveEntry bad.name).isSome →
      parse bad.content = none →
      createCsvGithub parse serialize (bad :: rest) revRows unrevRows revCount unrevCount
        = createCsvGithub parse serialize rest revRows unrevRows revCount unrevCount) ∧
    (∀ (entries : List ZipEntry) (fileIdx : Nat) (rows : List (List String))
        (count : Nat) (res : List (List String) × Nat),
      createCsvOsv parse serialize entries fileIdx rows count = .ok res →
      ∀ e ∈ entries, strEndsWith e.name ".json" = true → parse e.content ≠ none) := by
  constructor
  · intro bad rest revRows unrevRows revCount unrevCount hjson hclass hparse
    obtain ⟨b, hb⟩ := Option.isSome_iff_exists.1 hclass
    show (if strEndsWith bad.name ".json" = true then _ else _) = _
    rw [if_pos hjson, hb, hparse]
  · intro entries
    induction entries with
    | nil =>
      intro fileIdx rows count res h e he
      simp at he
    | cons e rest ih =>
      intro fileIdx rows count res h e' he'
      unfold createCsvOsv at h
      split at h
      · rename_i hjson
        split at h
        · cases h
        · rename_i osv hosv
          split at h
          · cases h
          · rcases List.mem_cons.1 he' with rfl | he''
            · intro _ hcontra
              rw [hcontra] at hosv
              cases hosv
            · exact ih _ _ _ _ h e' he''
      · rename_i hjson
        rcases List.mem_cons.1 he' with rfl | he''
        · intro hc
          exact (hjson hc).elim
        · exact ih _ _ _ _ h e' he''

set_option maxRecDepth 8192 in
/-- Witness for C8: the GitHub transformer drops a concrete bad entry, and a
concrete all-good OSV batch shows every `.json` entry of a successful OSV
run parses; both obtained from `c8_parse_failure_handling` with its
hypotheses discharged by computation. -/
theorem c8_parse_failure_handling_witness :
    createCsvGithub c8Parse (fun o => o.payload)
        [⟨"advisory-database-main/advisories/unreviewed/bad.json", "not json"⟩,
         ⟨"advisory-database-main/advisories/unreviewed/good.json", "good"⟩] [] [] 0 0
      = createCsvGithub c8Parse (fun o => o.payload)
          [⟨"advisory-database-main/advisories/unreviewed/good.json", "good"⟩] [] [] 0 0 ∧
    (∀ e ∈ [ZipEntry.mk "good.json" "good"],
      strEndsWith e.name ".json" = true → c8Parse e.content ≠ none) := by
  constructor
  · exact (c8_parse_failure_handling c8Parse (fun o => o.payload)).1
      ⟨"advisory-database-main/advisories/unreviewed/bad.json", "not json"⟩
      _ _ _ _ _ (by rfl) (by rfl) (by rfl)
  · exact (c8_parse_failure_handling c8Parse (fun o => o.payload)).2
      [⟨"good.json", "good"⟩] 0 [] 0
      ([["CVE-2025-1000", "2025-07-01T00:00:00+00:00", "2025-07-01T00:00:00+00:00",
          "ok"]], 1) (by rfl)
